import Mathlib

/-!
Verification of the claude-code-botman core against its specification.

The repository ships the package `claude_code_botman` (command builder,
response translator, session tracker, batch helper) together with its test
suite.  The package modules themselves (`core.py`, `utils.py`, `config.py`,
`exceptions.py`) are not present in the source tree that was provided, so
the definitions below are modelled from the specification document and
checked for consistency with the behaviour pinned down by the test suite
(`tests/test_core.py`, `tests/test_utils.py`).

Strings are processed through their underlying character lists with
structural recursion, so that every definition evaluates by `decide`.
-/

namespace ClaudeCodeBotman


/-! ## Character/string helpers (structural versions of trim, lower, split) -/

/-- Whitespace test used by the line heuristics. -/

def isWsChar (c : Char) : Bool := c = ' ' || c = '\t' || c = '\n' || c = '\r'

/-- Lower-case a single ASCII character. -/

def lowerChar (c : Char) : Char :=
  if 'A' ≤ c && c ≤ 'Z' then Char.ofNat (c.toNat + 32) else c

/-- Strip leading and trailing whitespace from a character list. -/

def trimL (l : List Char) : List Char :=
  (((l.dropWhile isWsChar).reverse).dropWhile isWsChar).reverse

/-- Boolean test that `p` is an initial segment of `l`. -/

def startsWithL : List Char → List Char → Bool
  | [], _ => true
  | _ :: _, [] => false
  | a :: as, b :: bs => a == b && startsWithL as bs

/-- Split a character list at newline characters. -/

def splitLinesL : List Char → List (List Char)
  | [] => [[]]
  | c :: rest =>
    if c = '\n' then [] :: splitLinesL rest
    else
      match splitLinesL rest with
      | [] => [[c]]
      | l :: ls => (c :: l) :: ls

/-! ## Response translator: line extraction heuristics -/

/-- Modelled from the spec: missing `claude_code_botman/utils.py`
(`ClaudeResponse._extract_*`).  A line matches a keyword when, after
trimming and lower-casing, it starts with the keyword; an optional colon
follows; the trimmed remainder of the line is captured (empty captures are
discarded). -/

def matchKeywordL (kw : List Char) (line : List Char) : Option (List Char) :=
  let t := trimL line
  if startsWithL kw (t.map lowerChar) then
    let rest :=
      match t.drop kw.length with
      | ':' :: r => r
      | r => r
    let r := trimL rest
    if r.isEmpty then none else some r
  else none

/-- Modelled from the spec: missing `claude_code_botman/utils.py`.
Scan every line of the raw output, collecting the first keyword match per
line, in order of first occurrence. -/

def extractByKeywords (kws : List String) (out : String) : List String :=
  (splitLinesL out.data).filterMap
    (fun line => (kws.findSome? (fun kw => matchKeywordL kw.data line)).map String.mk)

/-- Modelled from the spec: missing `claude_code_botman/utils.py`.
Errors: lines matching "Error:? X", "Failed:? X", "Exception:? X"
(case-insensitive), capturing the remainder. -/

def extractErrors (out : String) : List String :=
  extractByKeywords ["error", "failed", "exception"] out

/-- Modelled from the spec: missing `claude_code_botman/utils.py`.
Session id: first line matching "Session ID: X". -/

def extractSessionId (out : String) : Option String :=
  ((splitLinesL out.data).findSome?
    (fun line => matchKeywordL "session id".data line)).map String.mk

/-! ## Response translator: the response value object -/

/-- Modelled from the spec: missing `claude_code_botman/utils.py`
(`ClaudeResponse`).  Value object produced once per invocation from
(raw text, exit code, stderr); all fields read-only after construction. -/

structure ClaudeResponse where
  raw_output : String
  exit_code : Int
  stderr : String
  errors : List String
  session_id : Option String
  success : Bool
  deriving Repr, DecidableEq

/-- Modelled from the spec: missing `claude_code_botman/utils.py`.
`translate(raw_stdout, exit_code, stderr) -> Response`, using the spec's
combined success rule: success iff exit code is zero AND the extracted
errors list is empty. -/

def translate (raw_stdout : String) (exit_code : Int) (stderr : String) :
    ClaudeResponse :=
  { raw_output := raw_stdout
    exit_code := exit_code
    stderr := stderr
    errors := extractErrors raw_stdout
    session_id := extractSessionId raw_stdout
    success := exit_code == 0 && (extractErrors raw_stdout).isEmpty }

/-! ## Output parsing (`parse_cli_output`) -/

/-- JSON documents, as decoded from the external tool's output. -/

inductive Json where
  | null
  | bool (b : Bool)
  | num (n : Int)
  | str (s : String)
  | arr (xs : List Json)
  | obj (fields : List (String × Json))

/-- The opening-brace character, kept out of literals. -/

def lbrace : Char := Char.ofNat 123

/-- The closing-brace character, kept out of literals. -/

def rbrace : Char := Char.ofNat 125

/-- Skip leading whitespace. -/

def skipWs : List Char → List Char
  | [] => []
  | c :: rest => if isWsChar c then skipWs rest else c :: rest

/-- Decode a single JSON string escape character. -/

def escCharJson (c : Char) : Option Char :=
  if c = '"' then some '"'
  else if c = '\\' then some '\\'
  else if c = '/' then some '/'
  else if c = 'n' then some '\n'
  else if c = 't' then some '\t'
  else if c = 'r' then some '\r'
  else none

/-- Decode a JSON string body (after the opening quote), returning the
decoded characters and the input after the closing quote. -/

def parseStringBody : List Char → Option (List Char × List Char)
  | [] => none
  | '"' :: rest => some ([], rest)
  | '\\' :: e :: rest =>
    match escCharJson e, parseStringBody rest with
    | some ec, some (s, r) => some (ec :: s, r)
    | _, _ => none
  | c :: rest =>
    match parseStringBody rest with
    | some (s, r) => some (c :: s, r)
    | none => none

/-- Take the maximal run of decimal digits. -/

def takeDigits : List Char → List Char × List Char
  | [] => ([], [])
  | c :: rest =>
    if c.isDigit then
      let p := takeDigits rest
      (c :: p.1, p.2)
    else ([], c :: rest)

/-- Numeric value of a digit run. -/

def digitsVal (ds : List Char) : Nat :=
  ds.foldl (fun a c => a * 10 + (c.toNat - 48)) 0

/-- Decode a JSON integer (optional minus sign, then digits). -/

def parseNumberFrom : List Char → Option (Json × List Char)
  | '-' :: rest =>
    match takeDigits rest with
    | ([], _) => none
    | (ds, r) => some (.num (-(digitsVal ds : Int)), r)
  | cs =>
    match takeDigits cs with
    | ([], _) => none
    | (ds, r) => some (.num (digitsVal ds), r)

mutual

/-- Modelled from the spec: missing `claude_code_botman/utils.py`.
Recursive-descent decoder for a single JSON value; the fuel argument
bounds the recursion depth. -/
def parseValue : Nat → List Char → Option (Json × List Char)
  | 0, _ => none
  | n + 1, cs =>
    match skipWs cs with
    | [] => none
    | c :: rest =>
      if c = 'n' then
        match rest with
        | 'u' :: 'l' :: 'l' :: r => some (.null, r)
        | _ => none
      else if c = 't' then
        match rest with
        | 'r' :: 'u' :: 'e' :: r => some (.bool true, r)
        | _ => none
      else if c = 'f' then
        match rest with
        | 'a' :: 'l' :: 's' :: 'e' :: r => some (.bool false, r)
        | _ => none
      else if c = '"' then
        match parseStringBody rest with
        | some (s, r) => some (.str (String.mk s), r)
        | none => none
      else if c = '[' then parseArrayItems n rest
      else if c = lbrace then parseObjectItems n rest
      else parseNumberFrom (c :: rest)

/-- Decode the items of a JSON array (after the opening bracket). -/
def parseArrayItems : Nat → List Char → Option (Json × List Char)
  | 0, _ => none
  | n + 1, cs =>
    match skipWs cs with
    | ']' :: r => some (.arr [], r)
    | cs' =>
      match parseValue n cs' with
      | some (v, r) =>
        match parseArrayRest n r with
        | some (vs, r2) => some (.arr (v :: vs), r2)
        | none => none
      | none => none

/-- Decode the continuation of a JSON array: a comma and an item, or the
closing bracket. -/
def parseArrayRest : Nat → List Char → Option (List Json × List Char)
  | 0, _ => none
  | n + 1, cs =>
    match skipWs cs with
    | ']' :: r => some ([], r)
    | ',' :: r =>
      match parseValue n r with
      | some (v, r2) =>
        match parseArrayRest n r2 with
        | some (vs, r3) => some (v :: vs, r3)
        | none => none
      | none => none
    | _ => none

/-- Decode the members of a JSON object (after the opening brace). -/
def parseObjectItems : Nat → List Char → Option (Json × List Char)
  | 0, _ => none
  | n + 1, cs =>
    match skipWs cs with
    | [] => none
    | c :: rest =>
      if c = rbrace then some (.obj [], rest)
      else
        match parseMember n (c :: rest) with
        | some (kv, r) =>
          match parseObjectRest n r with
          | some (kvs, r2) => some (.obj (kv :: kvs), r2)
          | none => none
        | none => none

/-- Decode one `"key": value` member of a JSON object. -/
def parseMember : Nat → List Char → Option ((String × Json) × List Char)
  | 0, _ => none
  | n + 1, cs =>
    match skipWs cs with
    | '"' :: rest =>
      match parseStringBody rest with
      | some (k, r) =>
        match skipWs r with
        | ':' :: r2 =>
          match parseValue n r2 with
          | some (v, r3) => some ((String.mk k, v), r3)
          | none => none
        | _ => none
      | none => none
    | _ => none

/-- Decode the continuation of a JSON object: a comma and a member, or the
closing brace. -/
def parseObjectRest : Nat → List Char → Option (List (String × Json) × List Char)
  | 0, _ => none
  | n + 1, cs =>
    match skipWs cs with
    | ',' :: r =>
      match parseMember n r with
      | some (kv, r2) =>
        match parseObjectRest n r2 with
        | some (kvs, r3) => some (kv :: kvs, r3)
        | none => none
      | none => none
    | c :: rest => if c = rbrace then some ([], rest) else none
    | [] => none

end

/-- Modelled from the spec: missing `claude_code_botman/utils.py`.
Decode a whole string as a single JSON document: one value, followed only
by whitespace. -/

def parseJson (s : String) : Option Json :=
  match parseValue (s.data.length + 1) s.data with
  | some (j, rest) => if (skipWs rest).isEmpty then some j else none
  | none => none

/-- The non-empty lines of the output (used by stream-json decoding). -/

def nonEmptyLines (out : String) : List (List Char) :=
  (splitLinesL out.data).filter (fun l => !(trimL l).isEmpty)

/-- Modelled from the spec: missing `claude_code_botman/utils.py`.
Stream-json: decode each non-empty line independently; a line that fails
to decode is a hard error for the whole parse. -/

def parseStreamJson (out : String) : Option (List Json) :=
  (nonEmptyLines out).mapM (fun l => parseJson (String.mk l))

/-- The structured content produced by `parse_cli_output`. -/

inductive ParsedContent where
  | text (t : String)
  | json (j : Json)
  | stream (results : List Json)

/-- The response-parsing error (`ClaudeCodeResponseError`), carrying the
offending fragment. -/

inductive CliOutputError where
  | responseError (fragment : String)

/-- Modelled from the spec: missing `claude_code_botman/utils.py`
(`parse_cli_output`).  Under format "json" decode a single document (a
decode failure raises the response-parsing error); under "stream-json"
decode each non-empty line; otherwise return the raw text under the
"text" key. -/

def parse_cli_output (output : String) (fmt : String) :
    Except CliOutputError ParsedContent :=
  if fmt = "json" then
    match parseJson output with
    | some j => .ok (.json j)
    | none => .error (.responseError output)
  else if fmt = "stream-json" then
    match parseStreamJson output with
    | some js => .ok (.stream js)
    | none => .error (.responseError output)
  else .ok (.text output)

/-! ## Command builder -/

/-- Values accepted by the command builder's keyword arguments. -/

inductive ArgValue where
  | vBool (b : Bool)
  | vStr (s : String)
  | vInt (n : Int)
  | vList (items : List String)
  | vNone
  deriving Repr, DecidableEq

/-- Kebab-case a flag name: replace underscores with hyphens. -/

def kebab (s : String) : String :=
  String.mk (s.data.map (fun c => if c = '_' then '-' else c))

/-- The command-line token for a flag name. -/

def flagTok (k : String) : String := "--" ++ kebab k

/-- Modelled from the spec: missing `claude_code_botman/utils.py`
(`format_command_args`).  Tokens emitted for one keyword argument:
a true boolean emits the bare flag, a false boolean or None emits
nothing, a scalar emits flag and stringified value, and a list emits one
flag/item pair per element in input order. -/

def formatArg : String × ArgValue → List String
  | (k, .vBool true) => [flagTok k]
  | (_, .vBool false) => []
  | (_, .vNone) => []
  | (k, .vStr s) => [flagTok k, s]
  | (k, .vInt n) => [flagTok k, toString n]
  | (k, .vList xs) => xs.flatMap (fun x => [flagTok k, x])

/-- Modelled from the spec: missing `claude_code_botman/utils.py`
(`format_command_args`).  Concatenate the tokens of every keyword
argument, in input order. -/

def format_command_args (kwargs : List (String × ArgValue)) : List String :=
  kwargs.flatMap formatArg

/-- Expansion of one character of a shell-quoted body: an embedded single
quote becomes quote, backslash, quote, quote. -/

def escBody (c : Char) : List Char :=
  if c = '\'' then ['\'', '\\', '\'', '\''] else [c]

/-- Modelled from the spec: missing `claude_code_botman/utils.py`
(`escape_shell_arg`).  Wrap the argument in single quotes, escaping
embedded single quotes. -/

def escape_shell_arg (s : String) : String :=
  String.mk ('\'' :: s.data.flatMap escBody ++ ['\''])

/-- Reference POSIX shell word parser for the quoting constructs involved:
single-quoted spans are literal, and a backslash outside quotes preserves
the literal value of the next character.  The boolean state is true inside
a single-quoted span; an unterminated span or trailing backslash fails. -/

def shellUnquote : Bool → List Char → Option (List Char)
  | false, [] => some []
  | false, c :: rest =>
    if c = '\'' then shellUnquote true rest
    else if c = '\\' then
      match rest with
      | [] => none
      | c2 :: rest2 => (shellUnquote false rest2).map (fun l => c2 :: l)
    else (shellUnquote false rest).map (fun l => c :: l)
  | true, [] => none
  | true, c :: rest =>
    if c = '\'' then shellUnquote false rest
    else (shellUnquote true rest).map (fun l => c :: l)

/-- Modelled from the spec: missing `claude_code_botman/core.py`
(`ClaudeCode._build_command`).  Executable name, non-interactive print
flag, the model, the formatted options, then the shell-quoted prompt
last. -/

def build_command (model : String) (kwargs : List (String × ArgValue))
    (prompt : String) : List String :=
  ["claude", "-p", "--model", model] ++ format_command_args kwargs ++
    [escape_shell_arg prompt]

/-! ## Session tracker -/

/-- Modelled from the spec: missing `claude_code_botman/core.py`
(`SessionInfo`).  One session record: id, working path, creation and
last-used timestamps, model name. -/

structure SessionInfo where
  session_id : String
  path : String
  created_at : Int
  last_used : Int
  model : String
  deriving Repr, DecidableEq

/-- Modelled from the spec: missing `claude_code_botman/core.py`
(`SessionInfo.is_expired`).  A record is expired when `now - last_used`
exceeds the caller-supplied max age. -/

def SessionInfo.is_expired (r : SessionInfo) (now max_age : Int) : Bool :=
  now - r.last_used > max_age

/-- Modelled from the spec: missing `claude_code_botman/core.py`.
State of the session tracker: a mapping from session id to record
(`ClaudeCode._sessions`) and the nullable current-session pointer
(`ClaudeCode._current_session_id`). -/

structure SessionTracker where
  sessions : List (String × SessionInfo)
  current : Option String
  deriving Repr, DecidableEq

/-- The fresh tracker owned by a newly constructed instance. -/

def emptyTracker : SessionTracker := { sessions := [], current := none }

/-- Modelled from the spec: missing `claude_code_botman/core.py`
(`ClaudeCode._update_session_info`).  A new id gets a record created now;
an existing id gets `last_used`, path and model updated.  The
current-session pointer is set to the id. -/

def record (sid path model : String) (now : Int) (t : SessionTracker) :
    SessionTracker :=
  { sessions :=
      if (t.sessions.lookup sid).isSome then
        t.sessions.map (fun p =>
          if p.1 = sid then
            (p.1, { p.2 with last_used := now, path := path, model := model })
          else p)
      else
        t.sessions ++ [(sid,
          { session_id := sid, path := path, created_at := now,
            last_used := now, model := model })]
    current := some sid }

/-- Modelled from the spec: missing `claude_code_botman/core.py`
(`ClaudeCode.get_current_session`): the record named by the pointer, or
nothing. -/

def get_current (t : SessionTracker) : Option SessionInfo :=
  t.current.bind (fun sid => t.sessions.lookup sid)

/-- Modelled from the spec: missing `claude_code_botman/core.py`
(`ClaudeCode.get_sessions`): the ids of all records. -/

def list_all (t : SessionTracker) : List String :=
  t.sessions.map Prod.fst

/-- Modelled from the spec: missing `claude_code_botman/core.py`
(`ClaudeCode.cleanup_expired_sessions`): drop every record whose
`now - last_used` exceeds the max age; clear the pointer if its record
was removed. -/

def expire (now max_age : Int) (t : SessionTracker) : SessionTracker :=
  { sessions := t.sessions.filter (fun p => !(p.2.is_expired now max_age))
    current :=
      match t.current with
      | some sid =>
        if t.sessions.any (fun p => p.1 == sid && p.2.is_expired now max_age)
        then none else some sid
      | none => none }

/-! ## Process invocation and error kinds -/

/-- Outcomes of launching the external process, as distinguished by the
core: completion with an exit code and captured output, exceeding the
wall-clock budget, or a missing executable (OS file-not-found). -/

inductive ProcOutcome where
  | completed (exit_code : Int) (stdout stderr : String)
  | timedOut
  | fileNotFound
  deriving Repr, DecidableEq

/-- The error kinds raised by an invocation: not-found, timeout carrying
the configured timeout value, and execution failure carrying the exit code
and the captured stdout/stderr. -/

inductive CallError where
  | notFound
  | timeout (timeout_value : Int)
  | executionFailed (exit_code : Int) (stdout stderr : String)
  deriving Repr, DecidableEq

/-- Modelled from the spec: missing `claude_code_botman/core.py`
(`ClaudeCode.__call__`).  The launcher oracle maps attempt numbers to
outcomes; the core launches exactly once (attempt 0) and never retries:
a missing executable raises not-found, exceeding the budget raises
timeout carrying the configured value, and a non-zero exit raises
execution failure carrying the exit code and the captured output. -/

def call_cli (timeout_cfg : Int) (launch : Nat → ProcOutcome) :
    Except CallError ClaudeResponse :=
  match launch 0 with
  | .fileNotFound => .error .notFound
  | .timedOut => .error (.timeout timeout_cfg)
  | .completed ec out err =>
    if ec = 0 then .ok (translate out ec err)
    else .error (.executionFailed ec out err)

/-- Modelled from the spec: missing `claude_code_botman/core.py`.  A full
invocation against the session tracker: on success the response is
translated and any extracted session id is recorded; every failure —
including timeout — returns the tracker untouched (a timed-out call
performs no session mutation). -/

def call_with_sessions (timeout_cfg now : Int) (path model : String)
    (t : SessionTracker) (outcome : ProcOutcome) :
    Except CallError ClaudeResponse × SessionTracker :=
  match outcome with
  | .fileNotFound => (.error .notFound, t)
  | .timedOut => (.error (.timeout timeout_cfg), t)
  | .completed ec out err =>
    if ec = 0 then
      match (translate out ec err).session_id with
      | some sid => (.ok (translate out ec err), record sid path model now t)
      | none => (.ok (translate out ec err), t)
    else (.error (.executionFailed ec out err), t)

/-! ## Batch execution helper -/

/-- Modelled from the spec: the batch-execution helper
(`ClaudeCodeBatch.execute_batch`) with fail-fast enabled, operations
modelled by their predetermined outcomes (a response string or the raised
error object).  Operations run in order; the first raising operation puts
the error object at its position, the run stops, and the results produced
so far are returned.  The second component counts how many operations
were invoked. -/

def execute_batch_fail_fast (ops : List (Except String String)) :
    List (Except String String) × Nat :=
  match ops with
  | [] => ([], 0)
  | .error e :: _ => ([.error e], 1)
  | .ok r :: rest =>
    ((.ok r :: (execute_batch_fail_fast rest).1),
      (execute_batch_fail_fast rest).2 + 1)

/-! ## Configuration and `set_config` -/

/-- Modelled from the spec: missing `claude_code_botman/config.py`
(`ClaudeConfig`).  Immutable configuration value object (representative
fields). -/

structure ClaudeConfig where
  model : String
  api_key : Option String
  default_path : String
  timeout : Int
  max_turns : Option Int
  output_format : String
  permission_mode : String
  verbose : Bool
  deriving Repr, DecidableEq

/-- Partial configuration overrides, merged over a base configuration by
field presence. -/

structure ConfigOverrides where
  model : Option String := none
  api_key : Option (Option String) := none
  default_path : Option String := none
  timeout : Option Int := none
  max_turns : Option (Option Int) := none
  output_format : Option String := none
  permission_mode : Option String := none
  verbose : Option Bool := none
  deriving Repr, DecidableEq

/-- Merge overrides over a base configuration: a present override wins,
an absent one keeps the base field. -/

def applyOverrides (c : ClaudeConfig) (o : ConfigOverrides) : ClaudeConfig :=
  { model := o.model.getD c.model
    api_key := o.api_key.getD c.api_key
    default_path := o.default_path.getD c.default_path
    timeout := o.timeout.getD c.timeout
    max_turns := o.max_turns.getD c.max_turns
    output_format := o.output_format.getD c.output_format
    permission_mode := o.permission_mode.getD c.permission_mode
    verbose := o.verbose.getD c.verbose }

/-- Modelled from the spec: missing `claude_code_botman/core.py`
(`ClaudeCode`).  A client instance: its configuration and its privately
owned session tracker. -/

structure ClaudeCode where
  config : ClaudeConfig
  tracker : SessionTracker
  deriving Repr, DecidableEq

/-- Modelled from the spec: missing `claude_code_botman/core.py`
(`ClaudeCode.set_config`).  Instances live in a store (modelling Python
object identity); `set_config` reads the instance at index `i`, appends a
distinct new instance whose configuration merges the overrides (with a
fresh session tracker), and returns the new instance's index.  No
existing instance is modified. -/

def set_config (store : List ClaudeCode) (i : Nat) (o : ConfigOverrides) :
    List ClaudeCode × Nat :=
  match store.get? i with
  | some cc =>
    (store ++ [{ config := applyOverrides cc.config o,
                 tracker := emptyTracker }], store.length)
  | none => (store, i)

/-! ## Theorems -/

/-- If no keyword argument can emit the token `t`, the built arguments
contain no occurrence of `t`. -/
theorem count_format_eq_zero (kwargs : List (String × ArgValue)) (t : String)
    (h : ∀ p ∈ kwargs, t ∉ formatArg p) :
    (format_command_args kwargs).count t = 0 := by
  refine List.count_eq_zero.mpr ?_
  intro hmem
  simp only [format_command_args, List.mem_flatMap] at hmem
  obtain ⟨p, hp, hin⟩ := hmem
  exact h p hp hin

/-- With pairwise-distinct keys, a key determines its keyword argument. -/
theorem eq_of_key_eq {l : List (String × ArgValue)}
    (hnodup : (l.map Prod.fst).Nodup) {k : String} {v : ArgValue}
    (hm : (k, v) ∈ l) {p : String × ArgValue} (hp : p ∈ l) (hk : p.1 = k) :
    p = (k, v) :=
  List.inj_on_of_nodup_map hnodup hp hm (by simp [hk])

/-- C3: for every boolean configuration/override flag, the builder emits
the corresponding kebab-case token (underscores replaced by hyphens)
exactly once when the flag is true, and emits no token for that flag when
it is false or absent; provided no other keyword argument emits that same
token. -/
theorem format_command_args_bool_flag
    (kwargs : List (String × ArgValue)) (k : String)
    (hnodup : (kwargs.map Prod.fst).Nodup)
    (hconf : ∀ p ∈ kwargs, p.1 ≠ k → flagTok k ∉ formatArg p) :
    flagTok "max_turns" = "--max-turns" ∧
    ((k, .vBool true) ∈ kwargs →
      (format_command_args kwargs).count (flagTok k) = 1) ∧
    (((k, .vBool false) ∈ kwargs ∨ k ∉ kwargs.map Prod.fst) →
      (format_command_args kwargs).count (flagTok k) = 0) := by
  refine ⟨by decide, ?_, ?_⟩
  · intro hmem
    obtain ⟨s, t, rfl⟩ := List.append_of_mem hmem
    have hnd := hnodup
    rw [List.map_append, List.map_cons, List.nodup_middle, List.nodup_cons,
      List.mem_append] at hnd
    push_neg at hnd
    obtain ⟨⟨hks, hkt⟩, -⟩ := hnd
    have hzs : (format_command_args s).count (flagTok k) = 0 := by
      apply count_format_eq_zero
      intro p hp
      refine hconf p (by simp [hp]) (fun hpk => hks ?_)
      show k ∈ s.map Prod.fst
      rw [← hpk]
      exact List.mem_map_of_mem Prod.fst hp
    have hzt : (format_command_args t).count (flagTok k) = 0 := by
      apply count_format_eq_zero
      intro p hp
      refine hconf p (by simp [hp]) (fun hpk => hkt ?_)
      show k ∈ t.map Prod.fst
      rw [← hpk]
      exact List.mem_map_of_mem Prod.fst hp
    simp only [format_command_args, List.flatMap_append, List.flatMap_cons,
      List.count_append] at hzs hzt ⊢
    rw [hzs, hzt]
    simp [formatArg]
  · intro hcase
    apply count_format_eq_zero
    intro p hp
    by_cases hpk : p.1 = k
    · rcases hcase with hfalse | habs
      · have hpe : p = (k, .vBool false) := eq_of_key_eq hnodup hfalse hp hpk
        simp [hpe, formatArg]
      · refine absurd ?_ habs
        rw [← hpk]
        exact List.mem_map_of_mem Prod.fst hp
    · exact hconf p hp hpk

/-- Witness for C3 on the test's inputs: `verbose=False, debug=True`
yields the `--debug` token exactly once and no `--verbose` token. -/
theorem format_command_args_bool_flag_witness :
    (format_command_args [("verbose", .vBool false), ("debug", .vBool true)]).count
        (flagTok "debug") = 1 ∧
    (format_command_args [("verbose", .vBool false), ("debug", .vBool true)]).count
        (flagTok "verbose") = 0 :=
  ⟨(format_command_args_bool_flag
      [("verbose", .vBool false), ("debug", .vBool true)] "debug"
      (by decide) (by decide)).2.1 (by decide),
   (format_command_args_bool_flag
      [("verbose", .vBool false), ("debug", .vBool true)] "verbose"
      (by decide) (by decide)).2.2 (Or.inl (by decide))⟩

/-- Counting the flag token over one flag/item pair per element. -/
theorem flatMap_pair_count (t : String) (xs : List String) (hx : t ∉ xs) :
    (xs.flatMap (fun x => [t, x])).count t = xs.length := by
  induction xs with
  | nil => simp
  | cons a as ih =>
    rw [List.flatMap_cons, List.count_append]
    have ha : a ≠ t := fun h => hx (h ▸ List.mem_cons_self a as)
    have h2 : ([t, a].count t) = 1 := by simp [List.count_cons, ha]
    rw [h2, ih (fun h => hx (List.mem_cons_of_mem a h))]
    simp [Nat.add_comm]

/-- C4: for every list-valued option with k elements, the built arguments
contain exactly k occurrences of the option's flag token, each immediately
followed by one list element, in the input order of the list; provided no
other keyword argument emits that token and no element equals it. -/
theorem format_command_args_list_option
    (kwargs : List (String × ArgValue)) (k : String) (xs : List String)
    (hnodup : (kwargs.map Prod.fst).Nodup)
    (hconf : ∀ p ∈ kwargs, p.1 ≠ k → flagTok k ∉ formatArg p)
    (hx : flagTok k ∉ xs)
    (hmem : (k, .vList xs) ∈ kwargs) :
    (format_command_args kwargs).count (flagTok k) = xs.length ∧
    ∃ pre post,
      format_command_args kwargs =
        pre ++ xs.flatMap (fun x => [flagTok k, x]) ++ post ∧
      flagTok k ∉ pre ∧ flagTok k ∉ post := by
  obtain ⟨s, t, rfl⟩ := List.append_of_mem hmem
  have hnd := hnodup
  rw [List.map_append, List.map_cons, List.nodup_middle, List.nodup_cons,
    List.mem_append] at hnd
  push_neg at hnd
  obtain ⟨⟨hks, hkt⟩, -⟩ := hnd
  have hzs : (format_command_args s).count (flagTok k) = 0 := by
    apply count_format_eq_zero
    intro p hp
    refine hconf p (by simp [hp]) (fun hpk => hks ?_)
    show k ∈ s.map Prod.fst
    rw [← hpk]
    exact List.mem_map_of_mem Prod.fst hp
  have hzt : (format_command_args t).count (flagTok k) = 0 := by
    apply count_format_eq_zero
    intro p hp
    refine hconf p (by simp [hp]) (fun hpk => hkt ?_)
    show k ∈ t.map Prod.fst
    rw [← hpk]
    exact List.mem_map_of_mem Prod.fst hp
  constructor
  · simp only [format_command_args, List.flatMap_append, List.flatMap_cons,
      List.count_append] at hzs hzt ⊢
    rw [hzs, hzt]
    show 0 + (((xs.flatMap fun x => [flagTok k, x]).count (flagTok k)) + 0) = _
    rw [flatMap_pair_count (flagTok k) xs hx]
    simp
  · refine ⟨format_command_args s, format_command_args t, ?_, ?_, ?_⟩
    · simp only [format_command_args, List.flatMap_append, List.flatMap_cons]
      simp [List.append_assoc, formatArg]
    · exact List.count_eq_zero.mp hzs
    · exact List.count_eq_zero.mp hzt

/-- Witness for C4 on the test's inputs:
`files=["file1.py", "file2.py"]` yields two `--files` tokens, each
followed by its element, in order. -/
theorem format_command_args_list_option_witness :
    (format_command_args [("files", .vList ["file1.py", "file2.py"])]).count
        (flagTok "files") = 2 ∧
    ∃ pre post,
      format_command_args [("files", .vList ["file1.py", "file2.py"])] =
        pre ++ (["file1.py", "file2.py"].flatMap
          (fun x => [flagTok "files", x])) ++ post ∧
      flagTok "files" ∉ pre ∧ flagTok "files" ∉ post :=
  format_command_args_list_option [("files", .vList ["file1.py", "file2.py"])]
    "files" ["file1.py", "file2.py"] (by decide) (by decide) (by decide)
    (by decide)

/-- Step equation of the reference parser outside quotes. -/
theorem shellUnquote_false_cons (c : Char) (rest : List Char) :
    shellUnquote false (c :: rest) =
      if c = '\'' then shellUnquote true rest
      else if c = '\\' then
        match rest with
        | [] => none
        | c2 :: rest2 => (shellUnquote false rest2).map (fun l => c2 :: l)
      else (shellUnquote false rest).map (fun l => c :: l) := by
  rw [shellUnquote.eq_def]

/-- Step equation of the reference parser inside a single-quoted span. -/
theorem shellUnquote_true_cons (c : Char) (rest : List Char) :
    shellUnquote true (c :: rest) =
      if c = '\'' then shellUnquote false rest
      else (shellUnquote true rest).map (fun l => c :: l) := by
  rw [shellUnquote.eq_def]

/-- Parsing the quoted body from inside a single-quoted span recovers the
original characters and consumes the closing quote. -/
theorem shellUnquote_escBody (cs : List Char) :
    shellUnquote true (cs.flatMap escBody ++ ['\'']) = some cs := by
  induction cs with
  | nil =>
    show shellUnquote true ['\''] = some []
    rw [shellUnquote_true_cons, if_pos rfl]
    rfl
  | cons c cs ih =>
    rw [List.flatMap_cons, List.append_assoc]
    by_cases hc : c = '\''
    · subst hc
      show shellUnquote true
        ('\'' :: '\\' :: '\'' :: '\'' :: (cs.flatMap escBody ++ ['\''])) = _
      rw [shellUnquote_true_cons, if_pos rfl, shellUnquote_false_cons,
        if_neg (by decide), if_pos rfl]
      show (shellUnquote false ('\'' :: (cs.flatMap escBody ++ ['\'']))).map
        (fun l => '\'' :: l) = _
      rw [shellUnquote_false_cons, if_pos rfl, ih]
      rfl
    · have he : escBody c = [c] := by simp [escBody, hc]
      rw [he]
      show shellUnquote true (c :: (cs.flatMap escBody ++ ['\''])) = _
      rw [shellUnquote_true_cons, if_neg hc, ih]
      rfl

/-- C5: for every prompt string, including prompts with embedded single
quotes, shell-escaping and then unescaping with the reference POSIX shell
parser yields the original prompt unchanged; and the escaped prompt is the
last element of the built argv. -/
theorem escape_shell_arg_round_trip :
    (∀ s : String,
      (shellUnquote false (escape_shell_arg s).data).map String.mk = some s) ∧
    (∀ (model prompt : String) (kwargs : List (String × ArgValue)),
      (build_command model kwargs prompt).getLast? =
        some (escape_shell_arg prompt)) := by
  constructor
  · intro s
    show (shellUnquote false
      ('\'' :: (s.data.flatMap escBody ++ ['\'']))).map String.mk = some s
    have h1 : shellUnquote false ('\'' :: (s.data.flatMap escBody ++ ['\''])) =
        shellUnquote true (s.data.flatMap escBody ++ ['\'']) := by
      rw [shellUnquote_false_cons, if_pos rfl]
    rw [h1, shellUnquote_escBody]
    rfl
  · intro model prompt kwargs
    show (["claude", "-p", "--model", model] ++
      (format_command_args kwargs ++ [escape_shell_arg prompt])).getLast? = _
    rw [← List.append_assoc, List.getLast?_concat]

/-- Unfolding equation of `parse_cli_output` at format "json". -/
theorem parse_cli_output_json_def (out : String) :
    parse_cli_output out "json" =
      match parseJson out with
      | some j => .ok (.json j)
      | none => .error (.responseError out) := rfl

/-- Unfolding equation of `parse_cli_output` at format "stream-json". -/
theorem parse_cli_output_stream_def (out : String) :
    parse_cli_output out "stream-json" =
      match parseStreamJson out with
      | some js => .ok (.stream js)
      | none => .error (.responseError out) := rfl

/-- C2: output parsing raises the response-parsing error iff the declared
format is json (or stream-json) and the input fails to decode; parsing
under format "text" never raises and always returns the raw stdout under
the "text" key.  Checked concretely on an invalid and a valid document. -/
theorem parse_cli_output_error_iff :
    (∀ out : String,
      ((∃ c, parse_cli_output out "json" = .ok c) ↔ parseJson out ≠ none) ∧
      ((∃ c, parse_cli_output out "stream-json" = .ok c) ↔
        parseStreamJson out ≠ none) ∧
      parse_cli_output out "text" = .ok (.text out)) ∧
    parse_cli_output "\x7b\"invalid\": json\x7d" "json" =
      .error (.responseError "\x7b\"invalid\": json\x7d") ∧
    parse_cli_output "\x7b\"a\":1\x7d" "json" =
      .ok (.json (.obj [("a", .num 1)])) := by
  refine ⟨fun out => ⟨?_, ?_, rfl⟩, rfl, rfl⟩
  · rw [parse_cli_output_json_def]
    cases h : parseJson out <;> simp
  · rw [parse_cli_output_stream_def]
    cases h : parseStreamJson out <;> simp

/-- Membership in the sessions surviving an expiry sweep. -/
theorem mem_expire_sessions (t : SessionTracker) (now max_age : Int)
    (sid : String) (r : SessionInfo) :
    (sid, r) ∈ (expire now max_age t).sessions ↔
      (sid, r) ∈ t.sessions ∧ ¬(now - r.last_used > max_age) := by
  simp [expire, List.mem_filter, SessionInfo.is_expired]

/-- C6: `expire(max_age)` removes exactly the records whose
`now - last_used` exceeds `max_age` and keeps all others unchanged; if the
removed set includes the record named by the current-session pointer, the
pointer is cleared, so `get_current` afterwards returns nothing. -/
theorem expire_removes_exactly_expired (t : SessionTracker)
    (now max_age : Int) :
    (∀ sid r, (sid, r) ∈ (expire now max_age t).sessions ↔
      (sid, r) ∈ t.sessions ∧ ¬(now - r.last_used > max_age)) ∧
    (∀ sid, sid ∈ list_all (expire now max_age t) ↔
      ∃ r, (sid, r) ∈ t.sessions ∧ ¬(now - r.last_used > max_age)) ∧
    (∀ sid r, t.current = some sid → (sid, r) ∈ t.sessions →
      now - r.last_used > max_age →
      get_current (expire now max_age t) = none) := by
  refine ⟨mem_expire_sessions t now max_age, fun sid => ?_, ?_⟩
  · constructor
    · intro hmem
      obtain ⟨p, hp, hfst⟩ := List.mem_map.mp hmem
      obtain ⟨hmem', hkeep⟩ :=
        (mem_expire_sessions t now max_age p.1 p.2).mp hp
      exact ⟨p.2, hfst ▸ hmem', hkeep⟩
    · rintro ⟨r, hmem', hkeep⟩
      exact List.mem_map.mpr
        ⟨(sid, r), (mem_expire_sessions t now max_age sid r).mpr
          ⟨hmem', hkeep⟩, rfl⟩
  · intro sid r hcur hmem hexp
    have hany : t.sessions.any
        (fun p => p.1 == sid && p.2.is_expired now max_age) = true := by
      rw [List.any_eq_true]
      exact ⟨(sid, r), hmem, by simp [SessionInfo.is_expired, hexp]⟩
    have hcur' : (expire now max_age t).current = none := by
      simp [expire, hcur, hany]
    rw [get_current, hcur']
    rfl

/-- Witness for C6 on the test's scenario: a session recorded with
`last_used = now - 1` is expired by `expire(max_age = 0)`, after which the
current session is gone and the id is absent from `list_all`. -/
theorem expire_removes_exactly_expired_witness :
    get_current (expire 10 0 (record "s1" "p" "m" 9 emptyTracker)) = none ∧
    "s1" ∉ list_all (expire 10 0 (record "s1" "p" "m" 9 emptyTracker)) :=
  ⟨(expire_removes_exactly_expired (record "s1" "p" "m" 9 emptyTracker)
      10 0).2.2 "s1" ⟨"s1", "p", 9, 9, "m"⟩ (by decide) (by decide) (by decide),
   fun hmem => by
    obtain ⟨r, hmem', hkeep⟩ :=
      ((expire_removes_exactly_expired (record "s1" "p" "m" 9 emptyTracker)
        10 0).2.1 "s1").mp hmem
    have hr : r = ⟨"s1", "p", 9, 9, "m"⟩ := by
      have h2 : ("s1", r) ∈
          [("s1", (⟨"s1", "p", 9, 9, "m"⟩ : SessionInfo))] := hmem'
      simpa using h2
    rw [hr] at hkeep
    exact hkeep (by decide)⟩

/-- C7: the error kind is determined by the failure condition — missing
executable raises not-found, exceeding the budget raises timeout carrying
the configured timeout value, non-zero exit raises execution failure
carrying the exit code and captured output — and the call depends only on
the single launch it performs (attempt 0), so none of these is retried. -/
theorem call_cli_error_kinds (tc : Int) (launch : Nat → ProcOutcome) :
    (launch 0 = .fileNotFound → call_cli tc launch = .error .notFound) ∧
    (launch 0 = .timedOut → call_cli tc launch = .error (.timeout tc)) ∧
    (∀ ec out err, launch 0 = .completed ec out err → ec ≠ 0 →
      call_cli tc launch = .error (.executionFailed ec out err)) ∧
    (∀ launch2 : Nat → ProcOutcome, launch 0 = launch2 0 →
      call_cli tc launch = call_cli tc launch2) := by
  refine ⟨fun h => ?_, fun h => ?_, fun ec out err h hne => ?_,
    fun launch2 h => ?_⟩
  · rw [call_cli, h]
  · rw [call_cli, h]
  · rw [call_cli, h]
    exact if_neg hne
  · rw [call_cli, call_cli, h]

/-- Witness for C7 at the test's concrete outcomes (timeout 30, exit code
1 with captured output, missing executable). -/
theorem call_cli_error_kinds_witness :
    call_cli 30 (fun _ => .timedOut) = .error (.timeout 30) ∧
    call_cli 30 (fun _ => .fileNotFound) = .error .notFound ∧
    call_cli 30 (fun _ => .completed 1 "Error occurred" "Command failed") =
      .error (.executionFailed 1 "Error occurred" "Command failed") :=
  ⟨(call_cli_error_kinds 30 (fun _ => .timedOut)).2.1 rfl,
   (call_cli_error_kinds 30 (fun _ => .fileNotFound)).1 rfl,
   (call_cli_error_kinds 30
      (fun _ => .completed 1 "Error occurred" "Command failed")).2.2.1
      1 "Error occurred" "Command failed" rfl (by decide)⟩

/-- C8: atomicity on timeout — an invocation that raises the timeout
error leaves the session state unchanged: the session map holds exactly
the records it held before the call and the current-session pointer is
unmodified. -/
theorem timeout_no_session_mutation (tc now : Int) (path model : String)
    (t : SessionTracker) (outcome : ProcOutcome)
    (h : outcome = .timedOut) :
    (call_with_sessions tc now path model t outcome).2 = t ∧
    (call_with_sessions tc now path model t outcome).2.sessions =
      t.sessions ∧
    (call_with_sessions tc now path model t outcome).2.current =
      t.current ∧
    (call_with_sessions tc now path model t outcome).1 =
      .error (.timeout tc) := by
  subst h
  exact ⟨rfl, rfl, rfl, rfl⟩

/-- Witness for C8 at a concrete tracker holding one session. -/
theorem timeout_no_session_mutation_witness :
    (call_with_sessions 30 10 "p" "m"
      (record "s1" "p" "m" 9 emptyTracker) .timedOut).2 =
      record "s1" "p" "m" 9 emptyTracker ∧
    (call_with_sessions 30 10 "p" "m"
      (record "s1" "p" "m" 9 emptyTracker) .timedOut).2.sessions =
      (record "s1" "p" "m" 9 emptyTracker).sessions ∧
    (call_with_sessions 30 10 "p" "m"
      (record "s1" "p" "m" 9 emptyTracker) .timedOut).2.current =
      (record "s1" "p" "m" 9 emptyTracker).current ∧
    (call_with_sessions 30 10 "p" "m"
      (record "s1" "p" "m" 9 emptyTracker) .timedOut).1 =
      .error (.timeout 30) :=
  timeout_no_session_mutation 30 10 "p" "m"
    (record "s1" "p" "m" 9 emptyTracker) .timedOut rfl

/-- C9: with fail-fast enabled, a batch whose first operation raises
returns a single-element result list whose only element is the raised
error object at that position, and no later operation is ever invoked
(exactly one operation runs, whatever follows). -/
theorem execute_batch_fail_fast_stops (e : String)
    (rest : List (Except String String)) :
    execute_batch_fail_fast (.error e :: rest) = ([.error e], 1) := rfl

/-- C10: `set_config` returns a distinct new instance whose configuration
has the overridden fields updated, while the original instance — and
every other existing instance — is unchanged. -/
theorem set_config_fresh_instance (store : List ClaudeCode) (i : Nat)
    (o : ConfigOverrides) (cc : ClaudeCode)
    (h : store.get? i = some cc) :
    (set_config store i o).2 = store.length ∧
    (set_config store i o).2 ≠ i ∧
    (set_config store i o).1.get? (set_config store i o).2 =
      some { config := applyOverrides cc.config o,
             tracker := emptyTracker } ∧
    (∀ j, j < store.length →
      (set_config store i o).1.get? j = store.get? j) ∧
    (set_config store i o).1.get? i = some cc ∧
    (applyOverrides cc.config o).model = o.model.getD cc.config.model ∧
    (applyOverrides cc.config o).timeout = o.timeout.getD cc.config.timeout ∧
    (applyOverrides cc.config o).verbose =
      o.verbose.getD cc.config.verbose := by
  have hi : i < store.length := by
    rcases List.get?_eq_some.mp h with ⟨hlt, -⟩
    exact hlt
  have hdef : set_config store i o =
      (store ++ [{ config := applyOverrides cc.config o,
                   tracker := emptyTracker }], store.length) := by
    rw [set_config, h]
  refine ⟨by rw [hdef], ?_, ?_, ?_, ?_, rfl, rfl, rfl⟩
  · rw [hdef]
    exact fun he => absurd (he ▸ hi) (lt_irrefl _)
  · rw [hdef]
    exact List.get?_concat_length store _
  · intro j hj
    rw [hdef]
    exact List.get?_append hj
  · rw [hdef]
    calc (store ++ [_]).get? i = store.get? i := List.get?_append hi
    _ = some cc := h

/-- Witness for C10 at the test's inputs: overriding model and timeout
yields a new instance with the overridden fields while the original is
untouched. -/
theorem set_config_fresh_instance_witness :
    (set_config
        [⟨⟨"claude-sonnet-4-20250514", some "test-key", ".", 30, none,
           "text", "prompt", false⟩, emptyTracker⟩] 0
        { model := some "claude-opus-4-20250514",
          timeout := some 120 }).2 = 1 ∧
    (set_config
        [⟨⟨"claude-sonnet-4-20250514", some "test-key", ".", 30, none,
           "text", "prompt", false⟩, emptyTracker⟩] 0
        { model := some "claude-opus-4-20250514",
          timeout := some 120 }).2 ≠ 0 ∧
    (set_config
        [⟨⟨"claude-sonnet-4-20250514", some "test-key", ".", 30, none,
           "text", "prompt", false⟩, emptyTracker⟩] 0
        { model := some "claude-opus-4-20250514",
          timeout := some 120 }).1.get? 0 =
      some ⟨⟨"claude-sonnet-4-20250514", some "test-key", ".", 30, none,
             "text", "prompt", false⟩, emptyTracker⟩ := by
  have h := set_config_fresh_instance
    [⟨⟨"claude-sonnet-4-20250514", some "test-key", ".", 30, none,
       "text", "prompt", false⟩, emptyTracker⟩] 0
    { model := some "claude-opus-4-20250514", timeout := some 120 }
    ⟨⟨"claude-sonnet-4-20250514", some "test-key", ".", 30, none,
      "text", "prompt", false⟩, emptyTracker⟩ rfl
  exact ⟨h.1, h.2.1, h.2.2.2.2.1⟩

/-- C1: for every response produced by the translator, the success flag is
the combined rule: success is true iff the exit code is zero and the
extracted errors list is empty; in particular, translating stdout
"Error: disk full" with exit code 0 yields success = false and
errors = ["disk full"]. -/
theorem translate_success_combined_rule :
    (∀ (raw stderr : String) (ec : Int),
      (translate raw ec stderr).success = true ↔
        ec = 0 ∧ (translate raw ec stderr).errors = []) ∧
    (translate "Error: disk full" 0 "").success = false ∧
    (translate "Error: disk full" 0 "").errors = ["disk full"] := by
  refine ⟨fun raw stderr ec => ?_, by decide, by decide⟩
  show (ec == 0 && (extractErrors raw).isEmpty) = true ↔
    ec = 0 ∧ extractErrors raw = []
  simp [List.isEmpty_iff]

end ClaudeCodeBotman


